import Mathlib

/-!
Verification of the streaming chat session manager of the yuque-rag
repository.  The web client lives in `frontend/src` (hooks/useChat.ts,
hooks/useHistory.ts, types/chat.ts, App.tsx), the mobile client in
`mobile/src` (screens/ChatScreen.tsx, services/chatService.ts).  The
definitions below are shallow embeddings of those TypeScript functions:
JavaScript strings are modelled by `String` (a sequence of characters;
all string operations used by the code — slice/substring/length/indexing
— act on UTF-16 code units, and every character appearing in the claims,
including CJK text, is a single code unit), `Date.now()` readings are
passed in explicitly as `Nat` arguments, React state updates become
explicit state passing, and `localStorage.setItem` calls are recorded in
a write log.
-/

namespace YuqueRag

/-- `role: 'user' | 'assistant'` from `types/chat.ts` / `mobile/src/types`. -/
inductive Role where
  | user
  | assistant
deriving DecidableEq, Repr

/-- `ChatMessage` / `Message`: `{id, role, content, timestamp, isStreaming?}`.
The optional `isStreaming` field is modelled as a `Bool` (absent ≡ `false`,
which is how both clients consume it). -/
structure Message where
  id : String
  role : Role
  content : String
  timestamp : Nat
  isStreaming : Bool
deriving DecidableEq, Repr

/-- `ChatSession`: `{id, title, messages, createdAt, updatedAt}`. -/
structure ChatSession where
  id : String
  title : String
  messages : List Message
  createdAt : Nat
  updatedAt : Nat
deriving DecidableEq, Repr

/-! ## Mobile stream consumer: `ChatService.chatStream` (chatService.ts)

`chatStream` issues one blocking `POST /chat`; on success it replays the
answer one character at a time through `onChunk` and then calls
`onComplete`; on failure it calls `onError`.  We embed it as a function
from the request outcome to the list of callback invocations in order. -/

/-- One callback invocation of the stream consumer contract. -/
inductive CbEvent where
  | chunk (text : String)
  | complete
  | error (msg : String)
deriving DecidableEq, Repr

/-- `true` exactly for the terminal callbacks `onComplete` / `onError`. -/
def CbEvent.isTerminal : CbEvent → Bool
  | .chunk _ => false
  | .complete => true
  | .error _ => true

/-- Embedding of `ChatService.chatStream` (chatService.ts lines 29–67):
the callback trace produced for a given outcome of the `POST /chat`
request.  On success the guard `if (response.data.answer)` skips the
per-character loop for a falsy (empty) answer; each loop iteration calls
`onChunk(answer[i])` with a single character; afterwards `onComplete`
fires.  On a thrown error the `catch` calls `onError` once. -/
def chatStream (result : Except String String) : List CbEvent :=
  match result with
  | .error e => [CbEvent.error e]
  | .ok answer =>
      (if answer.isEmpty then []
       else answer.data.map (fun c => CbEvent.chunk (String.singleton c)))
      ++ [CbEvent.complete]

/-- The chunk texts of a callback trace, in order. -/
def chunkTexts (events : List CbEvent) : List String :=
  events.filterMap fun e =>
    match e with
    | .chunk s => some s
    | _ => none

/-! ## Web client session store: `useHistory` (frontend hooks/useHistory.ts)

The hook keeps `sessions : ChatSession[]` and
`currentSessionId : string | null` in React state and mirrors every
mutation into `localStorage` through `saveToStorage`.  We model the pair
of state cells plus a log of the `saveToStorage` calls (each entry is
the session list serialized by that call). -/

structure WebState where
  sessions : List ChatSession
  currentSessionId : Option String
  writes : List (List ChatSession)
deriving DecidableEq, Repr

/-- `saveToStorage(newSessions)`: `localStorage.setItem(STORAGE_KEY, JSON.stringify(newSessions))`,
recorded in the write log. -/
def saveToStorage (newSessions : List ChatSession) (st : WebState) : WebState :=
  { st with writes := st.writes ++ [newSessions] }

/-- Truncated title used by the web client:
`message.content.slice(0, 30) + (message.content.length > 30 ? '...' : '')`. -/
def webTitleOf (content : String) : String :=
  content.take 30 ++ (if 30 < content.length then "..." else "")

/-- `'新对话'` — the "new conversation" placeholder title (both clients). -/
def newConversationTitle : String := "新对话"

/-- Title of the session freshly created by `addMessage` when there is no
current session: the user-branch truncation, `'新对话'` otherwise. -/
def webInitialTitle (m : Message) : String :=
  if m.role = Role.user then webTitleOf m.content else newConversationTitle

/-- `createSession()` (useHistory.ts lines 84–99); `now` is the `Date.now()`
reading used for the id and both timestamps. -/
def createSession (now : Nat) (st : WebState) : WebState :=
  let newSession : ChatSession :=
    { id := "session-" ++ Nat.repr now
      title := newConversationTitle
      messages := []
      createdAt := now
      updatedAt := now }
  let newSessions := newSession :: st.sessions
  saveToStorage newSessions
    { st with sessions := newSessions, currentSessionId := some newSession.id }

/-- `deleteSession(sessionId)` (useHistory.ts lines 102–116): filter the
session out; if it was current, switch to `newSessions[0]` (the first
remaining session in store order) or to `null`; persist. -/
def deleteSession (sessionId : String) (st : WebState) : WebState :=
  let newSessions := st.sessions.filter fun s => s.id ≠ sessionId
  let cur :=
    if st.currentSessionId = some sessionId then
      match newSessions with
      | [] => none
      | s :: _ => some s.id
    else st.currentSessionId
  saveToStorage newSessions { sessions := newSessions, currentSessionId := cur, writes := st.writes }

/-- `updateSessionMessages(sessionId, message)` (useHistory.ts lines 146–171):
append `message` to the matching session, derive the title when it is the
session's first message and user-authored, bump `updatedAt`, persist. -/
def updateSessionMessages (sessionId : String) (m : Message) (now : Nat) (st : WebState) :
    WebState :=
  let newSessions := st.sessions.map fun session =>
    if session.id = sessionId then
      let updatedMessages := session.messages ++ [m]
      let title :=
        if updatedMessages.length = 1 ∧ m.role = Role.user then webTitleOf m.content
        else session.title
      { session with messages := updatedMessages, title := title, updatedAt := now }
    else session
  saveToStorage newSessions { st with sessions := newSessions }

/-- `addMessage(message)` (useHistory.ts lines 119–143): with no current
session, create a fresh session holding the message (title derived from it)
and prepend it; otherwise delegate to `updateSessionMessages`. -/
def addMessage (now : Nat) (m : Message) (st : WebState) : WebState :=
  match st.currentSessionId with
  | none =>
      let newSession : ChatSession :=
        { id := "session-" ++ Nat.repr now
          title := webInitialTitle m
          messages := [m]
          createdAt := now
          updatedAt := now }
      let newSessions := newSession :: st.sessions
      saveToStorage newSessions
        { st with sessions := newSessions, currentSessionId := some newSession.id }
  | some cur => updateSessionMessages cur m now st

/-- The shared "rewrite the trailing array element" shape: both clients
copy the array and assign index `length - 1`. -/
def modifyLast (f : Message → Message) : List Message → List Message
  | [] => []
  | [m] => [f m]
  | m :: rest => m :: modifyLast f rest

/-- In-place update of the trailing array element performed by
`updateLastMessage`: `messages[messages.length-1] = {...last, content, isStreaming}`. -/
def setLastMessage (content : String) (streaming : Bool) : List Message → List Message :=
  modifyLast fun m => { m with content := content, isStreaming := streaming }

/-- `updateLastMessage(content, isStreaming)` (useHistory.ts lines 174–211):
no current session ⇒ plain return; otherwise rewrite the last message of the
current session (when its list is non-empty) and persist — but only when
`isStreaming` is false ("流式更新时不需要每次都保存"). -/
def updateLastMessage (now : Nat) (content : String) (streaming : Bool) (st : WebState) :
    WebState :=
  match st.currentSessionId with
  | none => st
  | some cur =>
      let newSessions := st.sessions.map fun session =>
        if session.id = cur ∧ session.messages ≠ [] then
          { session with
              messages := setLastMessage content streaming session.messages
              updatedAt := now }
        else session
      let st' := { st with sessions := newSessions }
      if streaming then st' else saveToStorage newSessions st'

/-! ## Web client send flow: `useChat.sendMessage` (frontend hooks/useChat.ts)

`sendMessage` appends a user message and an empty streaming assistant
placeholder through `onMessageAdd` (wired to `addMessage`), then lets the
stream consumer drive `onMessageUpdate` (wired to `updateLastMessage`): the
closure variable `fullContent` accumulates the chunks, each chunk triggers
`onMessageUpdate(fullContent, true)`, completion triggers
`onMessageUpdate(fullContent, false)`, and the error callback triggers
`onMessageUpdate(fullContent || fallback, false)`.  `Date.now()` readings
inside one call are passed in as explicit arguments (`t1` for the user
message, `t2` for the assistant placeholder, `now` for the store updates). -/

/-- The user message built by `sendMessage` (useChat.ts lines 16–21). -/
def webUserMsg (t : Nat) (question : String) : Message :=
  { id := "user-" ++ Nat.repr t
    role := Role.user
    content := question
    timestamp := t
    isStreaming := false }

/-- The placeholder assistant message built by `sendMessage`
(useChat.ts lines 26–32): empty content, `isStreaming: true`. -/
def webAssistantMsg (t : Nat) : Message :=
  { id := "assistant-" ++ Nat.repr t
    role := Role.assistant
    content := ""
    timestamp := t
    isStreaming := true }

/-- The synchronous prefix of `sendMessage` before any stream callback
fires: add the user message, then the placeholder.  Note there is no
in-flight check here — `sendMessage` reads no flag before appending.
Sequential threading of the two `addMessage` calls is faithful when a
current session is designated, because that path updates through a
functional `setSessions(prev => ...)` updater; when `currentSessionId` is
null the real code's two calls share one stale render closure and the
second clobbers the first, so statements about `webSendBegin` only
quantify over states with a current session. -/
def webSendBegin (t1 t2 : Nat) (question : String) (st : WebState) : WebState :=
  addMessage t2 (webAssistantMsg t2) (addMessage t1 (webUserMsg t1 question) st)

/-- The `onChunk` loop of `sendMessage`: for each chunk,
`fullContent += chunk; onMessageUpdate(fullContent, true)`.  Returns the
state together with the final value of `fullContent`. -/
def webApplyChunks (now : Nat) (fullContent : String) (chunks : List String)
    (st : WebState) : WebState × String :=
  match chunks with
  | [] => (st, fullContent)
  | c :: rest =>
      webApplyChunks now (fullContent ++ c) rest
        (updateLastMessage now (fullContent ++ c) true st)

/-- `'抱歉，生成回答时出现错误，请稍后重试。'` — the web error fallback text. -/
def webErrFallback : String := "抱歉，生成回答时出现错误，请稍后重试。"

/-- The streaming phase of `sendMessage` ending in `onComplete`:
chunks are applied, then `onMessageUpdate(fullContent, false)`. -/
def webSendRun (now : Nat) (chunks : List String) (st : WebState) : WebState :=
  let p := webApplyChunks now "" chunks st
  updateLastMessage now p.2 false p.1

/-- The streaming phase of `sendMessage` ending in the error callback:
chunks are applied, then `onMessageUpdate(fullContent || fallback, false)`
(useChat.ts lines 54–59) — the placeholder is updated, never removed. -/
def webSendRunError (now : Nat) (chunks : List String) (st : WebState) : WebState :=
  let p := webApplyChunks now "" chunks st
  updateLastMessage now (if p.2 = "" then webErrFallback else p.2) false p.1

/-! ## Mobile client send flow: `ChatScreen.handleSend` (ChatScreen.tsx)

State: the `messages` list plus the `isLoadingRef` ref used as the
synchronous in-flight flag.  `handleSend` returns unchanged state when the
flag is set; otherwise it sets the flag, appends the user message and the
placeholder, and lets `chatStream` drive the three callbacks. -/

structure MobileState where
  isLoadingRef : Bool
  messages : List Message
deriving DecidableEq, Repr

/-- The user message built by `handleSend` (ChatScreen.tsx lines 262–267). -/
def mobileUserMsg (t : Nat) (content : String) : Message :=
  { id := "user_" ++ Nat.repr t
    role := Role.user
    content := content
    timestamp := t
    isStreaming := false }

/-- The placeholder assistant message (ChatScreen.tsx lines 272–281):
id `ai_<now>`, empty content, `isStreaming: true`. -/
def mobileAiMsg (t : Nat) : Message :=
  { id := "ai_" ++ Nat.repr t
    role := Role.assistant
    content := ""
    timestamp := t
    isStreaming := true }

/-- The synthetic assistant error message pushed by the `onError` handler
(ChatScreen.tsx lines 320–326). -/
def mobileErrorMsg (t : Nat) (err : String) : Message :=
  { id := "error_" ++ Nat.repr t
    role := Role.assistant
    content := "抱歉，发生错误：" ++ err
    timestamp := t
    isStreaming := false }

/-- The `onChunk` handler (ChatScreen.tsx lines 290–299): if the last
message is the placeholder (`lastMessage.id === aiMessageId`), append the
chunk to its content; otherwise leave the list unchanged. -/
def mobileOnChunk (aiMessageId : String) (chunk : String) : List Message → List Message :=
  modifyLast fun m =>
    if m.id = aiMessageId then { m with content := m.content ++ chunk } else m

/-- The message-list part of the `onComplete` handler (ChatScreen.tsx
lines 301–311): clear `isStreaming` on the last message when it is the
placeholder. -/
def mobileOnComplete (aiMessageId : String) : List Message → List Message :=
  modifyLast fun m =>
    if m.id = aiMessageId then { m with isStreaming := false } else m

/-- The message-list part of the `onError` handler (ChatScreen.tsx
lines 317–328): drop every message with the placeholder's id, then push
the synthetic error message. -/
def mobileOnError (aiMessageId : String) (t : Nat) (err : String)
    (msgs : List Message) : List Message :=
  msgs.filter (fun m => m.id ≠ aiMessageId) ++ [mobileErrorMsg t err]

/-- Drives the mobile callback handlers over a stream-consumer trace.
`tErr` is the `Date.now()` reading of the error handler.  The terminal
handlers also reset `isLoadingRef`. -/
def mobileRunEvents (aiMessageId : String) (tErr : Nat) (events : List CbEvent)
    (st : MobileState) : MobileState :=
  events.foldl
    (fun st e =>
      match e with
      | .chunk c => { st with messages := mobileOnChunk aiMessageId c st.messages }
      | .complete =>
          { isLoadingRef := false, messages := mobileOnComplete aiMessageId st.messages }
      | .error err =>
          { isLoadingRef := false, messages := mobileOnError aiMessageId tErr err st.messages })
    st

/-- The synchronous prefix of `handleSend(content)` (ChatScreen.tsx
lines 251–283): the check-and-set of `isLoadingRef` decides rejection in
the same synchronous step that sets the flag; an accepted send appends the
user message (`Date.now()` = `t1`) and the placeholder (`t2`). -/
def mobileHandleSendStart (t1 t2 : Nat) (content : String) (st : MobileState) :
    MobileState :=
  if st.isLoadingRef then st
  else
    { isLoadingRef := true
      messages := st.messages ++ [mobileUserMsg t1 content, mobileAiMsg t2] }

/-- `handleSend(content)` (ChatScreen.tsx lines 251–345): the synchronous
prefix, then the `chatStream` callback trace for the request outcome. -/
def mobileHandleSend (t1 t2 tErr : Nat) (content : String)
    (result : Except String String) (st : MobileState) : MobileState :=
  if st.isLoadingRef then st
  else
    mobileRunEvents ("ai_" ++ Nat.repr t2) tErr (chatStream result)
      (mobileHandleSendStart t1 t2 content st)

/-! ## Mobile history persistence: `ChatScreen.saveHistory` (lines 202–246)

`saveHistory(updatedMessages)` reads the stored session list, updates the
current session in place when it exists (messages, `updatedAt`, and the
title derived from the first *user-role* message found in the list), and
otherwise pushes a brand-new session at the end.  Embedded as a pure
function from `(storedSessions, currentSessionId)` to the new pair. -/

/-- `firstUserMessage.content.substring(0, 30) || '新对话'`. -/
def mobileTruncOrPlaceholder (content : String) : String :=
  if content.take 30 = "" then newConversationTitle else content.take 30

/-- Title assigned when updating an existing session: derived from the
first user-role message when one exists, otherwise left unchanged. -/
def mobileUpdatedTitle (oldTitle : String) (msgs : List Message) : String :=
  match msgs.find? (fun m => m.role = Role.user) with
  | some m => mobileTruncOrPlaceholder m.content
  | none => oldTitle

/-- Title of a freshly pushed session:
`firstUserMessage?.content.substring(0, 30) || '新对话'`. -/
def mobileNewSessionTitle (msgs : List Message) : String :=
  match msgs.find? (fun m => m.role = Role.user) with
  | some m => mobileTruncOrPlaceholder m.content
  | none => newConversationTitle

/-- `sessions[existingSessionIndex] = f(...)` via `findIndex`: rewrite the
first session whose id matches, leave the rest untouched. -/
def updateFirstSession (sessionId : String) (f : ChatSession → ChatSession) :
    List ChatSession → List ChatSession
  | [] => []
  | s :: rest =>
      if s.id = sessionId then f s :: rest
      else s :: updateFirstSession sessionId f rest

/-- `saveHistory(updatedMessages)` as a pure function; `now` is the single
`Date.now()` reading taken at the top of the function. -/
def mobileSaveHistory (now : Nat) (updatedMessages : List Message)
    (sessions : List ChatSession) (cur : Option String) :
    List ChatSession × Option String :=
  let pushNew : List ChatSession × Option String :=
    let newSessionId :=
      match cur with
      | some cid => cid
      | none => "session_" ++ Nat.repr now
    (sessions ++
      [{ id := newSessionId
         title := mobileNewSessionTitle updatedMessages
         messages := updatedMessages
         createdAt := now
         updatedAt := now }],
     some newSessionId)
  match cur with
  | some cid =>
      if sessions.any (fun s => s.id = cid) then
        (updateFirstSession cid
          (fun s =>
            { s with
                messages := updatedMessages
                updatedAt := now
                title := mobileUpdatedTitle s.title updatedMessages })
          sessions,
         some cid)
      else pushNew
  | none => pushNew

/-! ## Persistence round trip (web `saveToStorage` / load effect)

`saveToStorage` writes `JSON.stringify(sessions)` under one key; the load
effect reads it back with `JSON.parse`.  For the record/array/string/number
data stored here, `JSON.parse ∘ JSON.stringify` is the identity on the
underlying JSON value, so the round trip is embedded at the JSON value
level: an explicit encoder from the session list into a JSON value tree and
an explicit decoder back, composed exactly as the blob is written and read. -/

inductive Json where
  | str (s : String)
  | num (n : Nat)
  | boolean (b : Bool)
  | arr (elems : List Json)
  | obj (fields : List (String × Json))

/-- `'user' | 'assistant'` serialized form of a role. -/
def roleToString : Role → String
  | .user => "user"
  | .assistant => "assistant"

def roleOfString (s : String) : Option Role :=
  if s = "user" then some Role.user
  else if s = "assistant" then some Role.assistant
  else none

/-- Property lookup on a parsed JSON object. -/
def getField (fields : List (String × Json)) (k : String) : Option Json :=
  (fields.find? (fun p => p.1 = k)).map (fun p => p.2)

def Json.asString : Json → Option String
  | .str s => some s
  | _ => none

def Json.asNat : Json → Option Nat
  | .num n => some n
  | _ => none

def Json.asBool : Json → Option Bool
  | .boolean b => some b
  | _ => none

/-- JSON value written for one message by `JSON.stringify`. -/
def encodeMessage (m : Message) : Json :=
  .obj
    [("id", .str m.id),
     ("role", .str (roleToString m.role)),
     ("content", .str m.content),
     ("timestamp", .num m.timestamp),
     ("isStreaming", .boolean m.isStreaming)]

/-- Reading one message back from the parsed blob; the optional
`isStreaming` property defaults to false, as the clients consume it. -/
def decodeMessage (j : Json) : Option Message :=
  match j with
  | .obj fields => do
      let id ← (getField fields "id").bind Json.asString
      let roleStr ← (getField fields "role").bind Json.asString
      let role ← roleOfString roleStr
      let content ← (getField fields "content").bind Json.asString
      let timestamp ← (getField fields "timestamp").bind Json.asNat
      pure
        { id := id
          role := role
          content := content
          timestamp := timestamp
          isStreaming := ((getField fields "isStreaming").bind Json.asBool).getD false }
  | _ => none

def decodeListWith {α : Type} (f : Json → Option α) : List Json → Option (List α)
  | [] => some []
  | x :: xs => do
      let a ← f x
      let rest ← decodeListWith f xs
      pure (a :: rest)

/-- JSON value written for one session. -/
def encodeSession (s : ChatSession) : Json :=
  .obj
    [("id", .str s.id),
     ("title", .str s.title),
     ("messages", .arr (s.messages.map encodeMessage)),
     ("createdAt", .num s.createdAt),
     ("updatedAt", .num s.updatedAt)]

def decodeSession (j : Json) : Option ChatSession :=
  match j with
  | .obj fields => do
      let id ← (getField fields "id").bind Json.asString
      let title ← (getField fields "title").bind Json.asString
      let messagesJson ← getField fields "messages"
      let messages ←
        match messagesJson with
        | .arr elems => decodeListWith decodeMessage elems
        | _ => none
      let createdAt ← (getField fields "createdAt").bind Json.asNat
      let updatedAt ← (getField fields "updatedAt").bind Json.asNat
      pure
        { id := id
          title := title
          messages := messages
          createdAt := createdAt
          updatedAt := updatedAt }
  | _ => none

/-- The serialized blob: `JSON.stringify(newSessions)` at the value level. -/
def encodeSessions (ss : List ChatSession) : Json :=
  .arr (ss.map encodeSession)

/-- The load effect's `JSON.parse(stored)` at the value level. -/
def decodeSessions (j : Json) : Option (List ChatSession) :=
  match j with
  | .arr elems => decodeListWith decodeSession elems
  | _ => none

/-! ## Helper lemmas -/

theorem chunkTexts_chatStream_ok (answer : String) :
    chunkTexts (chatStream (Except.ok answer)) = answer.data.map String.singleton := by
  by_cases h : answer.isEmpty
  · have he : answer = "" := (String.isEmpty_iff answer).mp h
    subst he; rfl
  · simp only [chatStream, h, if_false, chunkTexts, List.filterMap_append,
      List.filterMap_map, Function.comp]
    induction answer.data with
    | nil => rfl
    | cons c cs ih => simpa [List.filterMap_cons] using ih

theorem join_map_singleton (s : String) :
    String.join (s.data.map String.singleton) = s := by
  apply String.ext
  simp only [String.data_join, List.map_map]
  have h : (String.data ∘ String.singleton) = fun c => [c] := by
    funext c; rfl
  rw [h]
  induction s.data with
  | nil => rfl
  | cons c cs ih => simp [ih]

theorem modifyLast_append_last (f : Message → Message) (base : List Message)
    (m : Message) : modifyLast f (base ++ [m]) = base ++ [f m] := by
  induction base with
  | nil => rfl
  | cons b bs ih =>
      cases bs with
      | nil => rfl
      | cons c cs =>
          show b :: modifyLast f ((c :: cs) ++ [m]) = b :: ((c :: cs) ++ [f m])
          rw [ih]

theorem mobileOnChunk_append_ai (aiMessageId chunk : String) (base : List Message)
    (m : Message) (hm : m.id = aiMessageId) :
    mobileOnChunk aiMessageId chunk (base ++ [m]) =
      base ++ [{ m with content := m.content ++ chunk }] := by
  rw [mobileOnChunk, modifyLast_append_last]
  simp [hm]

theorem mobileOnChunk_foldl (aiMessageId : String) (chunks : List String)
    (base : List Message) (m : Message) (hm : m.id = aiMessageId) :
    chunks.foldl (fun msgs c => mobileOnChunk aiMessageId c msgs) (base ++ [m]) =
      base ++ [{ m with content := chunks.foldl (· ++ ·) m.content }] := by
  induction chunks generalizing m with
  | nil => cases m; rfl
  | cons c cs ih =>
      simp only [List.foldl_cons]
      rw [mobileOnChunk_append_ai aiMessageId c base m hm]
      exact ih { m with content := m.content ++ c } hm

/-- Running only chunk events leaves the loading flag alone and folds the
chunks into the message list. -/
theorem mobileRunEvents_chunks (aiMessageId : String) (tErr : Nat)
    (chunks : List String) (flag : Bool) (msgs : List Message) :
    mobileRunEvents aiMessageId tErr (chunks.map CbEvent.chunk) ⟨flag, msgs⟩ =
      ⟨flag, chunks.foldl (fun msgs c => mobileOnChunk aiMessageId c msgs) msgs⟩ := by
  induction chunks generalizing msgs with
  | nil => rfl
  | cons c cs ih =>
      simp only [List.map_cons, mobileRunEvents, List.foldl_cons]
      exact ih (mobileOnChunk aiMessageId c msgs)

theorem mobileRunEvents_append (aiMessageId : String) (tErr : Nat)
    (evs₁ evs₂ : List CbEvent) (st : MobileState) :
    mobileRunEvents aiMessageId tErr (evs₁ ++ evs₂) st =
      mobileRunEvents aiMessageId tErr evs₂ (mobileRunEvents aiMessageId tErr evs₁ st) := by
  simp [mobileRunEvents, List.foldl_append]

/-- The web chunk loop keeps the single-session store shape, only the
trailing message and `updatedAt` change, and the returned closure value is
the fold of the chunks onto the accumulator. -/
theorem webApplyChunks_shape (now : Nat) (chunks : List String) (acc : String)
    (sid title : String) (base : List Message) (m : Message) (ca ua : Nat)
    (w : List (List ChatSession)) :
    ∃ c' b' ua',
      webApplyChunks now acc chunks
          ⟨[⟨sid, title, base ++ [m], ca, ua⟩], some sid, w⟩ =
        (⟨[⟨sid, title, base ++ [{ m with content := c', isStreaming := b' }], ca, ua'⟩],
            some sid, w⟩,
         chunks.foldl (· ++ ·) acc) := by
  induction chunks generalizing acc m ua with
  | nil => exact ⟨m.content, m.isStreaming, ua, by cases m; rfl⟩
  | cons c cs ih =>
      simp only [webApplyChunks, List.foldl_cons]
      have hstep :
          updateLastMessage now (acc ++ c) true
              ⟨[⟨sid, title, base ++ [m], ca, ua⟩], some sid, w⟩ =
            ⟨[⟨sid, title,
                base ++ [{ m with content := acc ++ c, isStreaming := true }], ca, now⟩],
              some sid, w⟩ := by
        simp [updateLastMessage, setLastMessage, modifyLast_append_last]
      rw [hstep]
      obtain ⟨c', b', ua', h⟩ :=
        ih (acc ++ c) { m with content := acc ++ c, isStreaming := true } now
      exact ⟨c', b', ua', h⟩

/-- Two appended strings differ when their first characters differ. -/
theorem append_ne_append_of_head_ne {p q : String} (s t : String) {c d : Char}
    (hp : p.data.head? = some c) (hq : q.data.head? = some d) (hcd : c ≠ d) :
    p ++ s ≠ q ++ t := by
  intro h
  have hdata : p.data ++ s.data = q.data ++ t.data := congrArg String.data h
  cases hpd : p.data with
  | nil => rw [hpd] at hp; exact Option.noConfusion hp
  | cons c' ps =>
      cases hqd : q.data with
      | nil => rw [hqd] at hq; exact Option.noConfusion hq
      | cons d' qs =>
          rw [hpd] at hp
          rw [hqd] at hq
          rw [hpd, hqd] at hdata
          simp only [List.cons_append, List.cons.injEq] at hdata
          have hc : c' = c := Option.some.inj hp
          have hd : d' = d := Option.some.inj hq
          exact hcd (by rw [← hc, ← hd]; exact hdata.1)

/-! ## Theorems -/

/-- C4: In buffered-replay mode (mobile `chatStream`), for every answer
string returned by the non-streaming endpoint, the concatenation of all
texts passed to `onChunk` equals the answer exactly — same length in
characters, hence no character dropped or duplicated — and every chunk is
one whole character, so a CJK character (one UTF-16 code unit) is never
split across chunk boundaries. -/
theorem bufferedReplay_chunks_exact (answer : String) :
    String.join (chunkTexts (chatStream (Except.ok answer))) = answer ∧
    (chunkTexts (chatStream (Except.ok answer))).length = answer.length ∧
    (chunkTexts (chatStream (Except.ok answer))).all
      (fun c => c.length = 1) = true := by
  rw [chunkTexts_chatStream_ok]
  refine ⟨join_map_singleton answer, by rw [List.length_map]; rfl, ?_⟩
  apply List.all_eq_true.mpr
  intro c hc
  obtain ⟨a, _, rfl⟩ := List.mem_map.mp hc
  rfl

/-- C5: For every invocation of the mobile stream consumer `chatStream`,
the callback trace ends with exactly one terminal callback (`onComplete`
or `onError`, never both), every `onChunk` call comes before it, and a
request failure produces the single-event trace `[onError]` with no
further callbacks afterward. -/
theorem chatStream_exactly_one_terminal (result : Except String String) :
    (∃ events term, chatStream result = events ++ [term] ∧
        term.isTerminal = true ∧
        events.all (fun e => e.isTerminal = false) = true) ∧
    (∀ e : String, chatStream (Except.error e) = [CbEvent.error e]) := by
  constructor
  · cases result with
    | error e => exact ⟨[], CbEvent.error e, rfl, rfl, rfl⟩
    | ok answer =>
        refine ⟨(if answer.isEmpty then []
            else answer.data.map fun c => CbEvent.chunk (String.singleton c)),
          CbEvent.complete, rfl, rfl, ?_⟩
        by_cases h : answer.isEmpty
        · simp [h]
        · simp [h, List.all_eq_true, CbEvent.isTerminal]
  · intro e; rfl

/-- C1: for every sequence of `onChunk` callbacks delivered between the
creation of the placeholder assistant message and its finalization, the
final content of that message equals the concatenation of the chunk texts
in call order, and after finalization `isStreaming` is false.  Mobile
conjunct: `handleSend`'s callback handlers over any transcript ending in
the placeholder.  Web conjunct: `sendMessage`'s accumulated
`onMessageUpdate` calls into `updateLastMessage`, for a store whose
current session's transcript ends in the placeholder. -/
theorem streamed_content_eq_chunk_concat :
    (∀ (base : List Message) (t2 tErr : Nat) (chunks : List String),
      mobileRunEvents ("ai_" ++ Nat.repr t2) tErr
          (chunks.map CbEvent.chunk ++ [CbEvent.complete])
          ⟨true, base ++ [mobileAiMsg t2]⟩ =
        ⟨false, base ++
          [{ mobileAiMsg t2 with
              content := String.join chunks, isStreaming := false }]⟩) ∧
    (∀ (sid title : String) (base : List Message) (ph : Message)
        (ca ua now : Nat) (w : List (List ChatSession)) (chunks : List String),
      webSendRun now chunks ⟨[⟨sid, title, base ++ [ph], ca, ua⟩], some sid, w⟩ =
        ⟨[⟨sid, title,
            base ++ [{ ph with content := String.join chunks, isStreaming := false }],
            ca, now⟩],
          some sid,
          w ++ [[⟨sid, title,
            base ++ [{ ph with content := String.join chunks, isStreaming := false }],
            ca, now⟩]]⟩) := by
  constructor
  · intro base t2 tErr chunks
    rw [mobileRunEvents_append, mobileRunEvents_chunks,
      mobileOnChunk_foldl ("ai_" ++ Nat.repr t2) chunks base (mobileAiMsg t2) rfl]
    show MobileState.mk false
        (mobileOnComplete ("ai_" ++ Nat.repr t2)
          (base ++ [{ mobileAiMsg t2 with content := chunks.foldl (· ++ ·) "" }])) = _
    rw [mobileOnComplete, modifyLast_append_last]
    simp [String.join, mobileAiMsg]
  · intro sid title base ph ca ua now w chunks
    show (fun p => updateLastMessage now p.2 false p.1)
        (webApplyChunks now "" chunks ⟨[⟨sid, title, base ++ [ph], ca, ua⟩], some sid, w⟩)
      = _
    obtain ⟨c', b', ua', h⟩ :=
      webApplyChunks_shape now chunks "" sid title base ph ca ua w
    rw [h]
    show updateLastMessage now (chunks.foldl (· ++ ·) "") false
        ⟨[⟨sid, title, base ++ [{ ph with content := c', isStreaming := b' }], ca, ua'⟩],
          some sid, w⟩ = _
    simp [updateLastMessage, setLastMessage, modifyLast_append_last, saveToStorage,
      String.join]

/-- C2 (amended): only the mobile client rejects a send while a prior send
is in flight.  Mobile: `handleSend` is a no-op when `isLoadingRef` is set,
and an accepted send sets the flag in the same synchronous step that
appends the user message and placeholder (check-and-set).  Web:
`sendMessage` performs no in-flight check — invoked against a store whose
current session already holds messages (e.g. a streaming placeholder), it
unconditionally appends another user message and another placeholder. -/
theorem send_guard_mobile_only :
    (∀ (t1 t2 tErr : Nat) (content : String) (result : Except String String)
        (st : MobileState), st.isLoadingRef = true →
      mobileHandleSend t1 t2 tErr content result st = st) ∧
    (∀ (t1 t2 : Nat) (content : String) (st : MobileState),
        st.isLoadingRef = false →
      mobileHandleSendStart t1 t2 content st =
        ⟨true, st.messages ++ [mobileUserMsg t1 content, mobileAiMsg t2]⟩) ∧
    (∀ (t3 t4 : Nat) (q sid title : String) (msgs : List Message) (ca ua : Nat)
        (w : List (List ChatSession)), msgs ≠ [] →
      webSendBegin t3 t4 q ⟨[⟨sid, title, msgs, ca, ua⟩], some sid, w⟩ =
        ⟨[⟨sid, title, msgs ++ [webUserMsg t3 q, webAssistantMsg t4], ca, t4⟩],
          some sid,
          w ++ [[⟨sid, title, msgs ++ [webUserMsg t3 q], ca, t3⟩],
                [⟨sid, title, msgs ++ [webUserMsg t3 q, webAssistantMsg t4], ca, t4⟩]]⟩) := by
  refine ⟨?_, ?_, ?_⟩
  · intro t1 t2 tErr content result st h
    simp [mobileHandleSend, h]
  · intro t1 t2 content st h
    simp [mobileHandleSendStart, h]
  · intro t3 t4 q sid title msgs ca ua w h
    have hlen : msgs.length ≠ 0 := by simpa using h
    simp [webSendBegin, addMessage, updateSessionMessages, saveToStorage, hlen,
      webAssistantMsg, h]

/-- C2 counterexample: on the web client, a `sendMessage` invoked while
the current session still holds the prior send's streaming placeholder
(its terminal callback has not fired) is not a no-op: it unconditionally
appends another user message and another placeholder, growing the
transcript from two messages to four with two streaming placeholders —
the claim requires the message count to be unchanged and no second
placeholder to be created. -/
theorem web_send_while_loading_not_noop :
    ((webSendBegin 3 4 "again"
        ⟨[⟨"s", "t", [webUserMsg 1 "hello", webAssistantMsg 2], 0, 2⟩],
          some "s", []⟩).sessions.map (fun s => s.messages.length) = [4]) ∧
    ((webSendBegin 3 4 "again"
        ⟨[⟨"s", "t", [webUserMsg 1 "hello", webAssistantMsg 2], 0, 2⟩],
          some "s", []⟩).sessions.map
        (fun s => (s.messages.filter (fun m => m.isStreaming)).length) = [2]) := by
  constructor
  · rfl
  · rfl

/-- Witness for the amended C2 theorem at concrete inputs. -/
theorem send_guard_mobile_only_witness :
    mobileHandleSend 1 2 3 "hi" (Except.ok "ok") ⟨true, []⟩ = ⟨true, []⟩ ∧
    mobileHandleSendStart 1 2 "hi" ⟨false, []⟩ =
      ⟨true, [mobileUserMsg 1 "hi", mobileAiMsg 2]⟩ ∧
    webSendBegin 3 4 "q" ⟨[⟨"s", "t", [webUserMsg 1 "m"], 0, 0⟩], some "s", []⟩ =
      ⟨[⟨"s", "t", [webUserMsg 1 "m", webUserMsg 3 "q", webAssistantMsg 4], 0, 4⟩],
        some "s",
        [[⟨"s", "t", [webUserMsg 1 "m", webUserMsg 3 "q"], 0, 3⟩],
         [⟨"s", "t", [webUserMsg 1 "m", webUserMsg 3 "q", webAssistantMsg 4], 0, 4⟩]]⟩ := by
  refine ⟨send_guard_mobile_only.1 1 2 3 "hi" (Except.ok "ok") ⟨true, []⟩ rfl,
    ?_, ?_⟩
  · have h := send_guard_mobile_only.2.1 1 2 "hi" ⟨false, []⟩ rfl
    simpa using h
  · have h := send_guard_mobile_only.2.2 3 4 "q" "s" "t" [webUserMsg 1 "m"] 0 0 []
      (by simp)
    simpa using h

/-- C3 (amended): on a failure signalled through `onError`, the mobile
client removes the placeholder and appends exactly one synthetic assistant
error message, leaving no streaming message and no message with the
placeholder's id; the web client instead keeps the placeholder under its
original id, overwrites its content with the accumulated partial text (or
the canned apology when no chunk arrived) and clears `isStreaming` —
no message is removed and no extra message is appended. -/
theorem error_turn_final_transcript :
    (∀ (base : List Message) (t2 tErr : Nat) (err : String) (chunks : List String),
      (∀ m ∈ base, m.id ≠ "ai_" ++ Nat.repr t2 ∧ m.isStreaming = false) →
      mobileRunEvents ("ai_" ++ Nat.repr t2) tErr
          (chunks.map CbEvent.chunk ++ [CbEvent.error err])
          ⟨true, base ++ [mobileAiMsg t2]⟩ =
        ⟨false, base ++ [mobileErrorMsg tErr err]⟩ ∧
      ∀ m ∈ (base ++ [mobileErrorMsg tErr err]),
        m.isStreaming = false ∧ m.id ≠ "ai_" ++ Nat.repr t2) ∧
    (∀ (sid title : String) (base : List Message) (ph : Message)
        (ca ua now : Nat) (w : List (List ChatSession)) (chunks : List String),
      webSendRunError now chunks ⟨[⟨sid, title, base ++ [ph], ca, ua⟩], some sid, w⟩ =
        ⟨[⟨sid, title,
            base ++ [{ ph with
              content := if String.join chunks = "" then webErrFallback
                         else String.join chunks
              isStreaming := false }],
            ca, now⟩],
          some sid,
          w ++ [[⟨sid, title,
            base ++ [{ ph with
              content := if String.join chunks = "" then webErrFallback
                         else String.join chunks
              isStreaming := false }],
            ca, now⟩]]⟩) := by
  constructor
  · intro base t2 tErr err chunks hbase
    constructor
    · rw [mobileRunEvents_append, mobileRunEvents_chunks,
        mobileOnChunk_foldl ("ai_" ++ Nat.repr t2) chunks base (mobileAiMsg t2) rfl]
      show MobileState.mk false
          (mobileOnError ("ai_" ++ Nat.repr t2) tErr err
            (base ++ [{ mobileAiMsg t2 with content := chunks.foldl (· ++ ·) "" }])) = _
      rw [mobileOnError, List.filter_append]
      have h1 : base.filter (fun m => m.id ≠ "ai_" ++ Nat.repr t2) = base :=
        List.filter_eq_self.mpr (fun m hm => by simpa using (hbase m hm).1)
      have h2 : List.filter (fun m => m.id ≠ "ai_" ++ Nat.repr t2)
          [{ mobileAiMsg t2 with content := chunks.foldl (· ++ ·) "" }] = [] := by
        simp [mobileAiMsg]
      rw [h1, h2, List.append_nil]
    · intro m hm
      rcases List.mem_append.mp hm with hmem | hmem
      · exact ⟨(hbase m hmem).2, (hbase m hmem).1⟩
      · have hm' : m = mobileErrorMsg tErr err := by simpa using hmem
        subst hm'
        refine ⟨rfl, ?_⟩
        show "error_" ++ Nat.repr tErr ≠ "ai_" ++ Nat.repr t2
        exact append_ne_append_of_head_ne (Nat.repr tErr) (Nat.repr t2)
          (c := 'e') (d := 'a') rfl rfl (by decide)
  · intro sid title base ph ca ua now w chunks
    show (fun p => updateLastMessage now
          (if p.2 = "" then webErrFallback else p.2) false p.1)
        (webApplyChunks now "" chunks ⟨[⟨sid, title, base ++ [ph], ca, ua⟩], some sid, w⟩)
      = _
    obtain ⟨c', b', ua', h⟩ :=
      webApplyChunks_shape now chunks "" sid title base ph ca ua w
    rw [h]
    show updateLastMessage now
        (if chunks.foldl (· ++ ·) "" = "" then webErrFallback
         else chunks.foldl (· ++ ·) "") false
        ⟨[⟨sid, title, base ++ [{ ph with content := c', isStreaming := b' }], ca, ua'⟩],
          some sid, w⟩ = _
    simp [updateLastMessage, setLastMessage, modifyLast_append_last, saveToStorage,
      String.join]

/-- C3 counterexample: on the web client, after the chunk "He" arrives and
the stream then fails, the placeholder (id `assistant-2`) is still in the
final transcript with the half-written content "He"; no synthetic error
message was appended in its place — the claim requires the placeholder to
be absent. -/
theorem web_error_keeps_placeholder :
    ((webSendRunError 3 ["He"]
        ⟨[⟨"s1", "T", [webUserMsg 1 "hi", webAssistantMsg 2], 0, 0⟩],
          some "s1", []⟩).sessions.map
        (fun s => s.messages.map (fun m => m.id)) = [["user-1", "assistant-2"]]) ∧
    ((webSendRunError 3 ["He"]
        ⟨[⟨"s1", "T", [webUserMsg 1 "hi", webAssistantMsg 2], 0, 0⟩],
          some "s1", []⟩).sessions.map
        (fun s => s.messages.map (fun m => m.content)) = [["hi", "He"]]) := by
  exact ⟨rfl, rfl⟩

/-- Witness for the amended C3 theorem at concrete inputs. -/
theorem error_turn_final_transcript_witness :
    mobileRunEvents ("ai_" ++ Nat.repr 2) 9
        ([CbEvent.chunk "He", CbEvent.error "boom"])
        ⟨true, [mobileUserMsg 1 "hi", mobileAiMsg 2]⟩ =
      ⟨false, [mobileUserMsg 1 "hi", mobileErrorMsg 9 "boom"]⟩ := by
  have h := (error_turn_final_transcript.1 [mobileUserMsg 1 "hi"] 2 9 "boom" ["He"]
    (by intro m hm
        simp only [List.mem_singleton] at hm
        subst hm
        exact ⟨by decide, rfl⟩)).1
  simpa using h

/-- C6 (amended): deleting the current session removes it from the store
and reassigns the current-session pointer to the *first remaining session
in store order* (`newSessions[0]`), not to the remaining session with the
greatest `updatedAt`; the pointer becomes none exactly when no session
remains; the new list is persisted. -/
theorem deleteSession_current_reassigns_positional (st : WebState) (sid : String)
    (h : st.currentSessionId = some sid) :
    (deleteSession sid st).sessions = st.sessions.filter (fun s => s.id ≠ sid) ∧
    (deleteSession sid st).currentSessionId =
      ((st.sessions.filter (fun s => s.id ≠ sid)).head?).map (fun s => s.id) ∧
    (deleteSession sid st).writes =
      st.writes ++ [st.sessions.filter (fun s => s.id ≠ sid)] := by
  refine ⟨rfl, ?_, rfl⟩
  show (if st.currentSessionId = some sid then
      match st.sessions.filter (fun s => s.id ≠ sid) with
      | [] => none
      | s :: _ => some s.id
    else st.currentSessionId) = _
  rw [if_pos h]
  cases st.sessions.filter (fun s => s.id ≠ sid) with
  | nil => rfl
  | cons s rest => rfl

/-- C6 counterexample: store `[C (updatedAt 10), B (updatedAt 3),
A (updatedAt 7)]` with current session `C`.  Deleting `C` reassigns the
pointer to `B` (`newSessions[0]`), although the most recently updated
remaining session is `A` (`updatedAt 7 > 3`) — the claim requires `A`. -/
theorem deleteSession_pointer_not_most_recent :
    ((deleteSession "C"
        ⟨[⟨"C", "t", [], 0, 10⟩, ⟨"B", "t", [], 0, 3⟩, ⟨"A", "t", [], 0, 7⟩],
          some "C", []⟩).currentSessionId = some "B") ∧
    ((deleteSession "C"
        ⟨[⟨"C", "t", [], 0, 10⟩, ⟨"B", "t", [], 0, 3⟩, ⟨"A", "t", [], 0, 7⟩],
          some "C", []⟩).sessions.map (fun s => (s.id, s.updatedAt)) =
      [("B", 3), ("A", 7)]) ∧
    ("B" : String) ≠ "A" ∧ (3 : Nat) < 7 := by
  exact ⟨rfl, rfl, by decide, by decide⟩

/-- Witness for the amended C6 theorem at a concrete store. -/
theorem deleteSession_current_reassigns_positional_witness :
    (deleteSession "C"
        ⟨[⟨"C", "t", [], 0, 10⟩, ⟨"B", "t", [], 0, 3⟩], some "C", []⟩).sessions =
      [⟨"B", "t", [], 0, 3⟩] ∧
    (deleteSession "C"
        ⟨[⟨"C", "t", [], 0, 10⟩, ⟨"B", "t", [], 0, 3⟩], some "C", []⟩).currentSessionId =
      some "B" ∧
    (deleteSession "C"
        ⟨[⟨"C", "t", [], 0, 10⟩, ⟨"B", "t", [], 0, 3⟩], some "C", []⟩).writes =
      [[⟨"B", "t", [], 0, 3⟩]] := by
  have h := deleteSession_current_reassigns_positional
    ⟨[⟨"C", "t", [], 0, 10⟩, ⟨"B", "t", [], 0, 3⟩], some "C", []⟩ "C" rfl
  simpa using h

theorem find?_user_append_assistant (pre msgs : List Message)
    (h : ∀ x ∈ pre, x.role = Role.assistant) :
    (pre ++ msgs).find? (fun m => m.role = Role.user) =
      msgs.find? (fun m => m.role = Role.user) := by
  induction pre with
  | nil => rfl
  | cons x xs ih =>
      have hx : x.role = Role.assistant := h x (by simp)
      simp only [List.cons_append, List.find?, hx]
      exact ih (fun y hy => h y (by simp [hy]))

theorem take30_ne_empty (c : String) (h : c ≠ "") : c.take 30 ≠ "" := by
  intro he
  apply h
  have hdata : (c.take 30).data = [] := by rw [he]
  rw [String.data_take] at hdata
  rcases List.take_eq_nil_iff.mp hdata with h0 | h0
  · exact absurd h0 (by decide)
  · exact String.ext h0

/-- C7 (amended): the two clients derive titles differently.  Web
(`addMessage` creating a session): a user-authored first message yields
its content truncated to 30 characters with `'...'` appended exactly when
it was longer; a non-user first message yields the `'新对话'` placeholder.
Mobile (`saveHistory`): the title comes from the first *user-role* message
found anywhere in the list — truncated to 30 characters with no ellipsis —
so a session whose first message is assistant-authored but contains a
later user message is titled from that user message, and the placeholder
appears only when no (non-empty) user message exists. -/
theorem title_derivation_per_client :
    (∀ (now : Nat) (m : Message) (st : WebState), st.currentSessionId = none →
      (addMessage now m st).sessions.head? =
        some ⟨"session-" ++ Nat.repr now,
          (if m.role = Role.user then
            m.content.take 30 ++ (if 30 < m.content.length then "..." else "")
          else newConversationTitle), [m], now, now⟩) ∧
    (∀ (now : Nat) (pre : List Message) (m : Message) (rest : List Message),
      (∀ x ∈ pre, x.role = Role.assistant) → m.role = Role.user →
      m.content ≠ "" →
      (mobileSaveHistory now (pre ++ m :: rest) [] none).1.map (fun s => s.title) =
        [m.content.take 30]) ∧
    (∀ (now : Nat) (msgs : List Message),
      (∀ x ∈ msgs, x.role = Role.assistant) →
      (mobileSaveHistory now msgs [] none).1.map (fun s => s.title) =
        [newConversationTitle]) := by
  refine ⟨?_, ?_, ?_⟩
  · intro now m st h
    simp [addMessage, h, webInitialTitle, webTitleOf, saveToStorage]
  · intro now pre m rest hpre hm hne
    simp only [mobileSaveHistory, mobileNewSessionTitle,
      find?_user_append_assistant pre (m :: rest) hpre, List.find?, hm]
    simp [mobileTruncOrPlaceholder, take30_ne_empty m.content hne]
  · intro now msgs h
    have hfind : msgs.find? (fun m => m.role = Role.user) = none := by
      have := find?_user_append_assistant msgs [] h
      simpa using this
    simp [mobileSaveHistory, mobileNewSessionTitle, hfind]

set_option maxRecDepth 8192 in
/-- C7 counterexample: a mobile session whose first message is
assistant-authored and whose second is the user message "hello" is titled
"hello" by `saveHistory`, not the `'新对话'` placeholder the claim
requires for a non-user first message. -/
theorem mobile_title_ignores_first_message_role :
    ((mobileSaveHistory 1
        [⟨"a1", Role.assistant, "hi", 0, false⟩, ⟨"u1", Role.user, "hello", 0, false⟩]
        [] none).1.map (fun s => s.title) = ["hello"]) ∧
    ("hello" : String) ≠ newConversationTitle := by
  exact ⟨rfl, by decide⟩

set_option maxRecDepth 8192 in
/-- Witness for the amended C7 theorem at concrete inputs. -/
theorem title_derivation_per_client_witness :
    ((addMessage 7 ⟨"u1", Role.user, "what is RAG?", 7, false⟩
        ⟨[], none, []⟩).sessions.head? =
      some ⟨"session-" ++ Nat.repr 7, "what is RAG?", [⟨"u1", Role.user, "what is RAG?", 7, false⟩], 7, 7⟩) ∧
    ((mobileSaveHistory 2
        [⟨"a1", Role.assistant, "hi", 0, false⟩, ⟨"u1", Role.user, "hello", 0, false⟩]
        [] none).1.map (fun s => s.title) = ["hello"]) ∧
    ((mobileSaveHistory 3 [⟨"a1", Role.assistant, "hi", 0, false⟩] [] none).1.map
        (fun s => s.title) = [newConversationTitle]) := by
  refine ⟨?_, ?_, ?_⟩
  · have h := title_derivation_per_client.1 7 ⟨"u1", Role.user, "what is RAG?", 7, false⟩
      ⟨[], none, []⟩ rfl
    simpa using h
  · have h := title_derivation_per_client.2.1 2 [⟨"a1", Role.assistant, "hi", 0, false⟩]
      ⟨"u1", Role.user, "hello", 0, false⟩ []
      (by intro x hx; simp only [List.mem_singleton] at hx; subst hx; rfl) rfl
      (by decide)
    simpa using h
  · have h := title_derivation_per_client.2.2 3 [⟨"a1", Role.assistant, "hi", 0, false⟩]
      (by intro x hx; simp only [List.mem_singleton] at hx; subst hx; rfl)
    simpa using h

theorem decodeMessage_encodeMessage (m : Message) :
    decodeMessage (encodeMessage m) = some m := by
  cases m with
  | mk i r c t s => cases r <;> rfl

theorem decodeListWith_map_encode {α : Type} (enc : α → Json) (dec : Json → Option α)
    (h : ∀ a, dec (enc a) = some a) (l : List α) :
    decodeListWith dec (l.map enc) = some l := by
  induction l with
  | nil => rfl
  | cons a rest ih => simp [decodeListWith, h a, ih]

theorem decodeSession_encodeSession (s : ChatSession) :
    decodeSession (encodeSession s) = some s := by
  cases s with
  | mk i t msgs ca ua =>
      show (decodeListWith decodeMessage (msgs.map encodeMessage)).bind
          (fun ms => some (ChatSession.mk i t ms ca ua)) = _
      rw [decodeListWith_map_encode encodeMessage decodeMessage
        decodeMessage_encodeMessage msgs]
      rfl

/-- C8: serializing the session store and deserializing it reproduces the
store exactly — in particular, for every session, an identical ordered
message list with id, role, content and timestamp preserved. -/
theorem persistence_round_trip (ss : List ChatSession) :
    decodeSessions (encodeSessions ss) = some ss := by
  show decodeListWith decodeSession (ss.map encodeSession) = some ss
  exact decodeListWith_map_encode encodeSession decodeSession
    decodeSession_encodeSession ss

/-- C9 (amended): within a single send the user, placeholder-assistant and
synthetic-error identifiers are pairwise distinct for every pair of clock
readings, because their prefixes (`user_`/`ai_`/`error_` on mobile,
`user-`/`assistant-` on web) differ; but the identifiers are derived from
`Date.now()` alone, so two messages of the same kind created in the same
millisecond share one identifier — distinctness across sends is not
guaranteed. -/
theorem message_ids_distinct_within_send :
    (∀ (t1 t2 t3 : Nat) (content err : String),
      (mobileUserMsg t1 content).id ≠ (mobileAiMsg t2).id ∧
      (mobileUserMsg t1 content).id ≠ (mobileErrorMsg t3 err).id ∧
      (mobileAiMsg t2).id ≠ (mobileErrorMsg t3 err).id) ∧
    (∀ (t1 t2 : Nat) (q : String),
      (webUserMsg t1 q).id ≠ (webAssistantMsg t2).id) ∧
    (∀ (t : Nat) (c c' : String),
      (mobileUserMsg t c).id = (mobileUserMsg t c').id) := by
  refine ⟨?_, ?_, ?_⟩
  · intro t1 t2 t3 content err
    exact ⟨append_ne_append_of_head_ne (Nat.repr t1) (Nat.repr t2)
        (c := 'u') (d := 'a') rfl rfl (by decide),
      append_ne_append_of_head_ne (Nat.repr t1) (Nat.repr t3)
        (c := 'u') (d := 'e') rfl rfl (by decide),
      append_ne_append_of_head_ne (Nat.repr t2) (Nat.repr t3)
        (c := 'a') (d := 'e') rfl rfl (by decide)⟩
  · intro t1 t2 q
    exact append_ne_append_of_head_ne (Nat.repr t1) (Nat.repr t2)
      (c := 'u') (d := 'a') rfl rfl (by decide)
  · intro t c c'
    rfl

/-- C9 counterexample: two accepted mobile sends that both observe
`Date.now() = 5` produce the transcript ids
`[user_5, ai_5, user_5, ai_5]` in one session — identifiers are reused,
so they are not pairwise distinct. -/
theorem message_ids_reused_same_millisecond :
    ¬ ((mobileHandleSend 5 5 0 "b" (Except.ok "y")
          (mobileHandleSend 5 5 0 "a" (Except.ok "x") ⟨false, []⟩)).messages.map
        (fun m => m.id)).Nodup := by
  decide

/-- C10 (amended): `updateLastMessage` never changes any session at these
two edges — with no current session it returns the state untouched and
writes nothing; but when a current session exists whose message list is
empty, the unchanged session list is still written to storage whenever
`isStreaming` is false (the claim's "writes nothing" fails there). -/
theorem updateLastMessage_edge_frame :
    (∀ (now : Nat) (content : String) (streaming : Bool) (st : WebState),
      st.currentSessionId = none →
      updateLastMessage now content streaming st = st) ∧
    (∀ (now : Nat) (content : String) (streaming : Bool) (st : WebState)
        (sid : String),
      st.currentSessionId = some sid →
      (∀ s ∈ st.sessions, s.id = sid → s.messages = []) →
      (updateLastMessage now content streaming st).sessions = st.sessions ∧
      (updateLastMessage now content streaming st).writes =
        if streaming then st.writes else st.writes ++ [st.sessions]) := by
  constructor
  · intro now content streaming st h
    simp [updateLastMessage, h]
  · intro now content streaming st sid h hmt
    have hmap : (st.sessions.map fun session =>
        if session.id = sid ∧ session.messages ≠ [] then
          { session with
              messages := setLastMessage content streaming session.messages
              updatedAt := now }
        else session) = st.sessions := by
      have hcongr : (st.sessions.map fun session =>
          if session.id = sid ∧ session.messages ≠ [] then
            { session with
                messages := setLastMessage content streaming session.messages
                updatedAt := now }
          else session) = st.sessions.map id := by
        apply List.map_congr_left
        intro s hs
        have hneg : ¬ (s.id = sid ∧ s.messages ≠ []) := by
          rintro ⟨h1, h2⟩
          exact h2 (hmt s hs h1)
        rw [if_neg hneg]
        rfl
      rw [hcongr, List.map_id]
    simp only [updateLastMessage, h]
    rw [hmap]
    cases streaming with
    | true => exact ⟨rfl, rfl⟩
    | false => exact ⟨rfl, rfl⟩

/-- C10 counterexample: with a current session whose message list is
empty, `updateLastMessage` leaves the sessions unchanged but still writes
the (unchanged) list to storage — the claim requires that nothing be
written. -/
theorem updateLastMessage_empty_session_still_writes :
    (updateLastMessage 5 "x" false ⟨[⟨"s1", "t", [], 0, 0⟩], some "s1", []⟩).sessions =
      [⟨"s1", "t", [], 0, 0⟩] ∧
    (updateLastMessage 5 "x" false ⟨[⟨"s1", "t", [], 0, 0⟩], some "s1", []⟩).writes =
      [[⟨"s1", "t", [], 0, 0⟩]] := by
  exact ⟨rfl, rfl⟩

/-- Witness for the amended C10 theorem at concrete inputs. -/
theorem updateLastMessage_edge_frame_witness :
    updateLastMessage 5 "x" false ⟨[⟨"s1", "t", [], 0, 0⟩], none, []⟩ =
      ⟨[⟨"s1", "t", [], 0, 0⟩], none, []⟩ ∧
    (updateLastMessage 5 "x" false ⟨[⟨"s1", "t", [], 0, 0⟩], some "s1", []⟩).sessions =
      [⟨"s1", "t", [], 0, 0⟩] ∧
    (updateLastMessage 5 "x" false ⟨[⟨"s1", "t", [], 0, 0⟩], some "s1", []⟩).writes =
      [] ++ [[⟨"s1", "t", [], 0, 0⟩]] := by
  refine ⟨updateLastMessage_edge_frame.1 5 "x" false ⟨[⟨"s1", "t", [], 0, 0⟩], none, []⟩ rfl,
    ?_⟩
  have h := updateLastMessage_edge_frame.2 5 "x" false
    ⟨[⟨"s1", "t", [], 0, 0⟩], some "s1", []⟩ "s1" rfl
    (by intro s hs _
        simp only [List.mem_singleton] at hs
        subst hs
        rfl)
  simpa using h

end YuqueRag
